import Mathlib

/-!
Verification of the Snowloader frontend against its natural-language
specification.  The definitions below are shallow embeddings of the
TypeScript source: JavaScript `Map` objects become insertion-ordered
association lists, React component state becomes explicit state records,
event handlers become state-transition functions, and `fetch` responses
become explicit response records.  JavaScript truthiness of strings
(`''` is falsy) and of nullable numbers (`null` and `0` are falsy) is
modelled explicitly where the code relies on it.
-/

namespace Snowloader

/-! ## JavaScript `Map` model (insertion-ordered association list)

A JS `Map` preserves insertion order: `set` on a fresh key appends, `set`
on an existing key updates the entry in place.  `get` returns the value
for the first (only) matching key. -/

def jsMapGet {β : Type} (m : List (String × β)) (k : String) : Option β :=
  match m with
  | [] => none
  | (k2, v) :: rest => if k2 = k then some v else jsMapGet rest k

def jsMapSet {β : Type} (m : List (String × β)) (k : String) (v : β) :
    List (String × β) :=
  match m with
  | [] => [(k, v)]
  | (k2, v2) :: rest =>
    if k2 = k then (k2, v) :: rest else (k2, v2) :: jsMapSet rest k v

/-- `jsMapUpsert m k d f` models the source pattern
`if (!m.has(k)) m.set(k, d); f(m.get(k)!)` where `f` mutates the entry in
place: ensure key `k` is present (inserting default `d` at the end if it
is absent), then apply `f` to the stored value. -/
def jsMapUpsert {β : Type} (m : List (String × β)) (k : String) (d : β)
    (f : β → β) : List (String × β) :=
  match m with
  | [] => [(k, f d)]
  | (k2, v2) :: rest =>
    if k2 = k then (k2, f v2) :: rest else (k2, v2) :: jsMapUpsert rest k d f

/-- JS string truthiness: only `''` is falsy. -/
def truthyStr (s : String) : Bool := !(s = "")

/-- JS truthiness of an optional string (`undefined`/`null`/`''` falsy). -/
def truthyOptStr : Option String → Bool
  | none => false
  | some s => truthyStr s

/-- JS truthiness of a `number | null` value: `null` and `0` are falsy. -/
def truthyOptNum : Option Nat → Bool
  | none => false
  | some n => !(n = 0)

/-- JS `Set` toggle used by the expand/collapse handlers: delete the
element when present, add it (at the end) otherwise. -/
def toggleSetMember (s : List String) (x : String) : List String :=
  if x ∈ s then s.filter (fun y => !(y == x)) else s ++ [x]

/-- JS `new Set([...prev, x])`: insert `x` at the end unless present. -/
def setInsert (s : List String) (x : String) : List String :=
  if x ∈ s then s else s ++ [x]

/-! ## `utils/api.ts` and `utils/useApi.ts`: the shared request helper

`getAuthHeaders` builds `{'Content-Type': 'application/json',
...(token && {'Authorization': `Bearer <token>`})}`; a missing Clerk
session or a failing `getToken()` leaves `token = ''`, and the empty
string is falsy, so the Authorization entry is spread in exactly when the
token is non-empty.  `apiRequest` merges `{...headers, ...options.headers}`
(later keys win) and performs exactly one `fetch`; on a non-ok response it
parses the body as JSON (falling back to `{detail: 'An error occurred'}`
when parsing rejects) and throws `error.detail || 'HTTP error! status: N'`
(`undefined` and `''` are falsy).  The `useApi` hook's `apiRequest` builds
the same merged header object inline and behaves identically. -/

/-- An HTTP response as observed by `apiRequest`: `ok` and `status` from
the fetch response; `errorBody = none` models `response.json()` rejecting
(non-JSON body), `errorBody = some d` models a parsed JSON object whose
`detail` field is `d` (`none` when the field is absent). -/
structure HttpResponse (α : Type) where
  ok : Bool
  status : Nat
  errorBody : Option (Option String)
  value : α
deriving Repr

/-- The non-ok branch of `apiRequest`/`useApi.apiRequest`: the message of
the thrown `Error`.  Mirrors
`const error = await response.json().catch(() => ({ detail: 'An error occurred' }))`
followed by `throw new Error(error.detail || 'HTTP error! status: ...')`. -/
def apiErrorMessage {α : Type} (resp : HttpResponse α) : String :=
  let detail : Option String :=
    match resp.errorBody with
    | some d => d
    | none => some "An error occurred"
  match detail with
  | some d => if d = "" then "HTTP error! status: " ++ toString resp.status else d
  | none => "HTTP error! status: " ++ toString resp.status

/-- The result of one `apiRequest` call on a given response: `.ok` with the
parsed body on an ok response, `.error` with the thrown message otherwise. -/
def apiRequestResult {α : Type} (resp : HttpResponse α) : Except String α :=
  if resp.ok then .ok resp.value else .error (apiErrorMessage resp)

/-- `apiRequest` performs a single `await fetch(...)`: given the stream of
responses the network would return, it consumes exactly the first one and
never retries.  Returns `none` only on an empty stream (no response at
all), otherwise the call's outcome together with the unconsumed stream. -/
def apiRequestOnStream {α : Type} (responses : List (HttpResponse α)) :
    Option (Except String α × List (HttpResponse α)) :=
  match responses with
  | [] => none
  | r :: rest => some (apiRequestResult r, rest)

/-- The headers object built by `getAuthHeaders` in `api.ts` (and inline
by `useApi`): always `Content-Type: application/json`, plus
`Authorization: Bearer <token>` spread in exactly when `token` is truthy
(non-empty). -/
def getAuthHeaders (token : String) : List (String × String) :=
  [("Content-Type", "application/json")] ++
    (if truthyStr token then [("Authorization", "Bearer " ++ token)] else [])

/-- The effective token string: `''` when there is no Clerk session, when
`getToken()` throws (the `catch` leaves `token = ''`), or when it resolves
to `null` (`|| ''`); otherwise the returned string. -/
def effectiveToken : Option String → String
  | none => ""
  | some t => t

/-- JS object spread `{...base, ...extra}` on string-keyed records: keys
of `base` keep their position (their value overridden by `extra` when
present there), keys only in `extra` are appended in order. -/
def spreadMerge (base extra : List (String × String)) : List (String × String) :=
  (base.map fun p =>
    match jsMapGet extra p.1 with
    | some v => (p.1, v)
    | none => p) ++
  extra.filter fun q => jsMapGet base q.1 = none

/-- The `options: RequestInit` argument of the request helper, restricted
to the fields the repository uses (`method`, `body`, `headers`). -/
structure RequestOptions where
  method : String := "GET"
  body : Option String := none
  headers : List (String × String) := []

/-- The single `fetch` call a request helper performs, as observable data:
target URL, method, body and headers. -/
structure SentRequest where
  url : String
  method : String
  body : Option String
  headers : List (String × String)

/-- The request sent by `apiRequest` in `api.ts`:
`fetch(API_URL + endpoint, {...options, headers: {...(await getAuthHeaders()), ...options.headers}})`. -/
def apiRequestSent (apiUrl token endpoint : String) (options : RequestOptions) :
    SentRequest :=
  { url := apiUrl ++ endpoint
    method := options.method
    body := options.body
    headers := spreadMerge (getAuthHeaders token) options.headers }

/-- The request sent by the `apiRequest` returned by `useApi`: the header
object `{'Content-Type': 'application/json', ...(token && {'Authorization':
'Bearer ' + token}), ...options.headers}` is built inline; the resulting
record is the same spread. -/
def useApiRequestSent (apiUrl token endpoint : String) (options : RequestOptions) :
    SentRequest :=
  { url := apiUrl ++ endpoint
    method := options.method
    body := options.body
    headers :=
      spreadMerge
        ([("Content-Type", "application/json")] ++
          (if truthyStr token then [("Authorization", "Bearer " ++ token)] else []))
        options.headers }

/-! ## Domain records mirrored from the remote API (`api.ts`) -/

/-- `Contract` from `api.ts`.  The free-form `contract_data:
Record<string, any>` field is not modelled: no claim depends on it and it
is opaque JSON to the client. -/
structure Contract where
  id : Nat
  name : String
  description : Option String := none
  organization : String
  department : String
  project_name : String
  source : String
  project_id : Option Nat := none
  created_at : String := ""
  updated_at : String := ""
deriving DecidableEq, Repr

/-- `Pipeline` from `api.ts`. -/
structure Pipeline where
  id : Nat
  name : String
  ingestion_type : String
  status : String
  target_database : String
  target_schema : String
  target_table : String
  created_at : String
deriving DecidableEq, Repr

/-- `DataGovernancePerson` from `api.ts`. -/
structure DataGovernancePerson where
  name : String
  email : String
  role : String
deriving DecidableEq, Repr

/-- `DataGovernance` from `api.ts`: all three role lists are optional. -/
structure DataGovernance where
  owners : Option (List DataGovernancePerson) := none
  stakeholders : Option (List DataGovernancePerson) := none
  stewards : Option (List DataGovernancePerson) := none
deriving DecidableEq, Repr

/-! ## `ContractTreeView.tsx`: the contract tree (claim C1)

`useMemo` builds a four-level tree from the flat contract list in a single
`contracts.forEach` pass.  Each level is a JS `Map` keyed by a prefixed
string (`org:`, `dept:`, `proj:`, `source:`, `contract:`); a missing
intermediate node is created on demand and the contract itself is `set`
as a leaf keyed by `contract:<id>`. -/

inductive TreeNodeType where
  | organization
  | department
  | project
  | source
  | contract
deriving DecidableEq, Repr

/-- `TreeNode` from `ContractTreeView.tsx`; `children` is a JS `Map`
modelled as an insertion-ordered association list. -/
inductive TreeNode where
  | mk (name : String) (type : TreeNodeType)
       (children : List (String × TreeNode)) (contractId : Option Nat)

def TreeNode.name : TreeNode → String
  | .mk n _ _ _ => n

def TreeNode.type : TreeNode → TreeNodeType
  | .mk _ t _ _ => t

def TreeNode.children : TreeNode → List (String × TreeNode)
  | .mk _ _ c _ => c

def TreeNode.contractId : TreeNode → Option Nat
  | .mk _ _ _ i => i

/-- Replace the `children` map of a node (the in-place mutation of the JS
node, made functional). -/
def TreeNode.withChildren : TreeNode → List (String × TreeNode) → TreeNode
  | .mk n t _ i, c => .mk n t c i

def orgKey (c : Contract) : String := "org:" ++ c.organization

def deptKey (c : Contract) : String := "dept:" ++ c.department

def projKey (c : Contract) : String := "proj:" ++ c.project_name

def sourceKey (c : Contract) : String := "source:" ++ c.source

def contractKey (c : Contract) : String := "contract:" ++ toString c.id

/-- The leaf node `set` for a contract:
`{name: contract.name, type: 'contract', children: new Map(), contractId: contract.id}`. -/
def contractLeaf (c : Contract) : TreeNode :=
  .mk c.name .contract [] (some c.id)

/-- One iteration of the `contracts.forEach` body: walk (and create where
missing) the organization, department, project and source nodes for `c`,
then `set` the contract leaf in the source node's children. -/
def insertContract (root : TreeNode) (c : Contract) : TreeNode :=
  root.withChildren <| jsMapUpsert root.children (orgKey c)
    (.mk c.organization .organization [] none) fun orgNode =>
  orgNode.withChildren <| jsMapUpsert orgNode.children (deptKey c)
    (.mk c.department .department [] none) fun deptNode =>
  deptNode.withChildren <| jsMapUpsert deptNode.children (projKey c)
    (.mk c.project_name .project [] none) fun projNode =>
  projNode.withChildren <| jsMapUpsert projNode.children (sourceKey c)
    (.mk c.source .source [] none) fun sourceNode =>
  sourceNode.withChildren <| jsMapSet sourceNode.children (contractKey c) (contractLeaf c)

/-- The initial root: `{name: 'root', type: 'organization', children: new Map()}`. -/
def rootNode : TreeNode := .mk "root" .organization [] none

/-- The `tree` value of the `useMemo`: a single left-to-right pass over
the contract list. -/
def buildTree (contracts : List Contract) : TreeNode :=
  contracts.foldl insertContract rootNode

/-- Look up the leaf for contract `c` along the path
organization/department/project/source determined by `c`'s own fields. -/
def findLeaf (t : TreeNode) (c : Contract) : Option TreeNode :=
  (jsMapGet t.children (orgKey c)).bind fun orgNode =>
  (jsMapGet orgNode.children (deptKey c)).bind fun deptNode =>
  (jsMapGet deptNode.children (projKey c)).bind fun projNode =>
  (jsMapGet projNode.children (sourceKey c)).bind fun sourceNode =>
  jsMapGet sourceNode.children (contractKey c)

/-! ## `contractsApi.list` and `projectsApi.list` query building (claim C6)

Both build a `URLSearchParams`, `append` each provided (truthy) filter in
a fixed order, and append `'?' + params.toString()` to the path exactly
when the serialized query is non-empty.  `URLSearchParams.toString()`
produces `application/x-www-form-urlencoded`: keys and values are
percent-encoded over their UTF-8 bytes, except the unreserved characters
`A-Z a-z 0-9 * - . _`, and the space which becomes `+`. -/

/-- UTF-8 bytes of a character (as `Nat`s below 256). -/
def utf8Bytes (c : Char) : List Nat :=
  let n := c.toNat
  if n < 128 then [n]
  else if n < 2048 then [192 + n / 64, 128 + n % 64]
  else if n < 65536 then [224 + n / 4096, 128 + (n / 64) % 64, 128 + n % 64]
  else [240 + n / 262144, 128 + (n / 4096) % 64, 128 + (n / 64) % 64, 128 + n % 64]

def hexDigitChar (n : Nat) : Char :=
  if n < 10 then Char.ofNat (48 + n) else Char.ofNat (55 + n)

def percentEncodeByte (b : Nat) : String :=
  String.mk ['%', hexDigitChar (b / 16), hexDigitChar (b % 16)]

/-- Characters `application/x-www-form-urlencoded` leaves unescaped. -/
def isFormUnreserved (c : Char) : Bool :=
  decide ('a' ≤ c ∧ c ≤ 'z') || decide ('A' ≤ c ∧ c ≤ 'Z') ||
    decide ('0' ≤ c ∧ c ≤ '9') || c == '-' || c == '_' || c == '.' || c == '*'

def urlEncodeChar (c : Char) : String :=
  if c == ' ' then "+"
  else if isFormUnreserved c then String.mk [c]
  else String.join ((utf8Bytes c).map percentEncodeByte)

/-- The `application/x-www-form-urlencoded` encoding of a string. -/
def urlEncode (s : String) : String :=
  String.join (s.data.map urlEncodeChar)

/-- `URLSearchParams.toString()` on an appended list of key/value pairs:
`key=value` pairs, percent-encoded, joined by `&`. -/
def searchParamsToString : List (String × String) → String
  | [] => ""
  | [p] => urlEncode p.1 ++ "=" ++ urlEncode p.2
  | p :: rest => urlEncode p.1 ++ "=" ++ urlEncode p.2 ++ "&" ++ searchParamsToString rest

/-- The optional `filters` argument of `contractsApi.list`; a missing
`filters` object is all-`none`. -/
structure ContractFilters where
  organization : Option String := none
  department : Option String := none
  project_name : Option String := none
  source : Option String := none
deriving DecidableEq, Repr

/-- The `URLSearchParams` built by `contractsApi.list`: one conditional
`append` per filter, in source order. -/
def contractsListParams (filters : ContractFilters) : List (String × String) :=
  let params : List (String × String) := []
  let params := if truthyOptStr filters.organization then
      params ++ [("organization", filters.organization.getD "")] else params
  let params := if truthyOptStr filters.department then
      params ++ [("department", filters.department.getD "")] else params
  let params := if truthyOptStr filters.project_name then
      params ++ [("project_name", filters.project_name.getD "")] else params
  if truthyOptStr filters.source then
    params ++ [("source", filters.source.getD "")] else params

/-- The endpoint string `contractsApi.list` passes to `apiRequest`:
`'/api/contracts' + (query ? '?' + query : '')`. -/
def contractsListUrl (filters : ContractFilters) : String :=
  let query := searchParamsToString (contractsListParams filters)
  "/api/contracts" ++ (if truthyStr query then "?" ++ query else "")

/-- The `URLSearchParams` built by `projectsApi.list organization department`. -/
def projectsListParams (organization department : Option String) :
    List (String × String) :=
  let params : List (String × String) := []
  let params := if truthyOptStr organization then
      params ++ [("organization", organization.getD "")] else params
  if truthyOptStr department then
    params ++ [("department", department.getD "")] else params

/-- The endpoint string `projectsApi.list` passes to `apiRequest`:
`'/api/projects' + (query ? '?' + query : '')`. -/
def projectsListUrl (organization department : Option String) : String :=
  let query := searchParamsToString (projectsListParams organization department)
  "/api/projects" ++ (if truthyStr query then "?" ++ query else "")

/-- Claim-side characterization of one conditional `append`: the query
entries a filter contributes — exactly one when it is provided and
non-empty, none otherwise. -/
def specQueryEntry (name : String) (v : Option String) : List (String × String) :=
  (v.bind fun s => if s = "" then none else some (name, s)).toList

/-! ## Form submission guards (claim C4)

`Projects.handleCreate` refuses to submit unless organization, department
and project are all truthy; `CreatePipeline.handleSubmit` runs its four
guards in order and only then builds the `PipelineCreateData` payload. -/

/-- `ProjectCreateData` from `api.ts` as held in the Projects page's
`formData` state. -/
structure ProjectFormData where
  organization : String
  department : String
  project : String
  data_governance : DataGovernance
deriving DecidableEq, Repr

inductive ProjectsCreateOutcome where
  | rejected (errorMsg : String)
  | submitted (data : ProjectFormData)
deriving DecidableEq, Repr

/-- `Projects.handleCreate`: on missing required fields it sets the error
message and returns without calling `projectsApi.create`; otherwise it
submits `formData` unchanged. -/
def handleCreateProject (formData : ProjectFormData) : ProjectsCreateOutcome :=
  if !truthyStr formData.organization || !truthyStr formData.department ||
      !truthyStr formData.project then
    .rejected "Please fill in all required fields"
  else
    .submitted formData

/-- The `'one_time' | 'snowpipe'` union of `CreatePipeline`. -/
inductive IngestionType where
  | one_time
  | snowpipe
deriving DecidableEq, Repr

def ingestionTypeStr : IngestionType → String
  | .one_time => "one_time"
  | .snowpipe => "snowpipe"

/-- `PipelineCreateData` from `api.ts`.  `copy_options:
Record<string, any>` is modelled with string values; only its emptiness
matters to the claims. -/
structure PipelineCreateData where
  name : String
  ingestion_type : String
  s3_connection_id : Nat
  s3_bucket : String
  snowflake_connection_id : Nat
  s3_path : String
  target_database : String
  target_schema : String
  target_table : Option String
  file_format : Option String
  copy_options : Option (List (String × String))
deriving DecidableEq, Repr

/-- The component state of `CreatePipeline` that `handleSubmit` reads.
The source's `s3Prefix` state variable is modelled as `s3PathText`. -/
structure CreatePipelineState where
  ingestionType : IngestionType
  selectedS3Connection : Option Nat
  selectedSnowflakeConnection : Option Nat
  selectedBucket : String
  selectedFile : Option String
  s3PathText : String
  targetDatabase : String
  targetSchema : String
  targetTable : String
  pipelineName : String
  detectedFileFormat : String
  fileType : String
  copyOptions : List (String × String)
deriving DecidableEq, Repr

inductive SubmitOutcome where
  | rejected (errorMsg : String)
  | submitted (data : PipelineCreateData)
deriving DecidableEq, Repr

/-- `CreatePipeline.handleSubmit` up to the `pipelinesApi.create` call:
the four early-return guards, then the payload construction.  `now` is
`Date.now()`, used for the fallback pipeline name. -/
def handleSubmit (s : CreatePipelineState) (now : Nat) : SubmitOutcome :=
  if !truthyOptNum s.selectedS3Connection || !truthyOptNum s.selectedSnowflakeConnection then
    .rejected "Please select both S3 and Snowflake connections"
  else if !truthyStr s.selectedBucket then
    .rejected "Please select a bucket"
  else if s.ingestionType == .one_time && !truthyOptStr s.selectedFile then
    .rejected "Please select a file for one-time ingestion"
  else if s.ingestionType == .snowpipe && !truthyStr s.s3PathText then
    .rejected "Please enter an S3 prefix/path for Snowpipe"
  else
    .submitted
      { name := if truthyStr s.pipelineName then s.pipelineName
                else "Pipeline_" ++ toString now
        ingestion_type := ingestionTypeStr s.ingestionType
        s3_connection_id := s.selectedS3Connection.getD 0
        s3_bucket := s.selectedBucket
        snowflake_connection_id := s.selectedSnowflakeConnection.getD 0
        s3_path := if s.ingestionType == .one_time then s.selectedFile.getD ""
                   else s.s3PathText
        target_database := s.targetDatabase
        target_schema := s.targetSchema
        target_table := if truthyStr s.targetTable then some s.targetTable else none
        file_format := if truthyStr s.fileType then some s.fileType
                       else if truthyStr s.detectedFileFormat then some s.detectedFileFormat
                       else none
        copy_options := if s.copyOptions.length > 0 then some s.copyOptions else none }

/-! ## Racing list loads (claim C7)

`Contracts.loadContracts` and `Pipelines.loadPipelines` each resolve by
calling `setContracts(data)` / `setPipelines(data)`: the new collection
replaces the old one outright, independent of the current state.  Two
overlapping requests therefore leave the data of whichever `set` call ran
last. -/

inductive ViewMode where
  | list
  | create
  | edit
  | view
deriving DecidableEq, Repr

/-- The local state of the Contracts page. -/
structure ContractsPageState where
  contracts : List Contract
  selectedContractId : Option Nat
  viewMode : ViewMode
  loading : Bool
  error : Option String
deriving DecidableEq, Repr

/-- The `setContracts(data)` state update performed when a
`contractsApi.list` response resolves. -/
def applyContractsResponse (s : ContractsPageState) (data : List Contract) :
    ContractsPageState :=
  { s with contracts := data }

/-- Apply the `setContracts` updates of several responses in the order in
which they reached the (single-threaded) event loop. -/
def runContractsResponses (s : ContractsPageState) (responses : List (List Contract)) :
    ContractsPageState :=
  responses.foldl applyContractsResponse s

/-- The local state of the Pipelines page. -/
structure PipelinesPageState where
  pipelines : List Pipeline
  loading : Bool
deriving DecidableEq, Repr

/-- The `setPipelines(data)` state update of `loadPipelines`. -/
def applyPipelinesResponse (s : PipelinesPageState) (data : List Pipeline) :
    PipelinesPageState :=
  { s with pipelines := data }

def runPipelinesResponses (s : PipelinesPageState) (responses : List (List Pipeline)) :
    PipelinesPageState :=
  responses.foldl applyPipelinesResponse s

/-! ## File-format auto-detection (claim C8)

`CreatePipeline`'s effect:
`const ext = selectedFile.toLowerCase().split('.').pop()` followed by the
`json`/`jsonl` → JSON, `csv` → CSV, `parquet` → PARQUET chain with CSV as
the default. -/

/-- JS `String.prototype.split` with a single-character separator, on the
character list: splitting never yields the empty list (splitting `''`
yields `['']`). -/
def splitChars (sep : Char) : List Char → List (List Char)
  | [] => [[]]
  | c :: cs =>
    match splitChars sep cs with
    | [] => [[]]
    | g :: gs => if c = sep then [] :: g :: gs else (c :: g) :: gs

/-- JS `s.split(sep)` for a single-character separator. -/
def jsSplit (sep : Char) (s : String) : List String :=
  (splitChars sep s.data).map List.asString

/-- JS `s.toLowerCase()` (character-wise lowering, as `String.toLower`
does, written over the character list so it evaluates in the kernel). -/
def jsToLower (s : String) : String :=
  (s.data.map Char.toLower).asString

/-- `selectedFile.toLowerCase().split('.').pop()`: the final dot-separated
segment of the lower-cased key (the whole lower-cased key when it has no
dot). -/
def lastExtSegment (selectedFile : String) : String :=
  (jsSplit '.' (jsToLower selectedFile)).getLastD ""

/-- The detected format written to `detectedFileFormat` (and `fileType`). -/
def detectFileFormat (selectedFile : String) : String :=
  let ext := lastExtSegment selectedFile
  if ext = "json" || ext = "jsonl" then "JSON"
  else if ext = "csv" then "CSV"
  else if ext = "parquet" then "PARQUET"
  else "CSV"

/-! ## IDE shell: sidebar file tree (claim C5) and tab bar (claim C9) -/

/-- `ObjectType` from `components/ide/types.ts`. -/
inductive ObjectType where
  | organization
  | project
  | source
  | contract
  | pipeline
deriving DecidableEq, Repr

/-- The string a template literal interpolates for an `ObjectType`. -/
def objectTypeName : ObjectType → String
  | .organization => "organization"
  | .project => "project"
  | .source => "source"
  | .contract => "contract"
  | .pipeline => "pipeline"

/-- `FileTreeNode` from `types.ts`: `children` and `parentId` optional. -/
inductive FileTreeNode where
  | mk (id : String) (name : String) (type : ObjectType)
       (children : Option (List FileTreeNode)) (parentId : Option String)

def FileTreeNode.id : FileTreeNode → String
  | .mk i _ _ _ _ => i

def FileTreeNode.name : FileTreeNode → String
  | .mk _ n _ _ _ => n

def FileTreeNode.type : FileTreeNode → ObjectType
  | .mk _ _ t _ _ => t

def FileTreeNode.children : FileTreeNode → Option (List FileTreeNode)
  | .mk _ _ _ c _ => c

def FileTreeNode.parentId : FileTreeNode → Option String
  | .mk _ _ _ _ p => p

/-- The `initialTree` mock constant of `IdeSidebar.tsx`. -/
def initialTree : List FileTreeNode :=
  [.mk "org-1" "Organization" .organization
    (some [.mk "proj-1" "Project 1" .project
      (some [.mk "src-1" "Source 1" .source
        (some [.mk "contract-1" "Contract.yml" .contract none (some "src-1")])
        (some "proj-1")])
      (some "org-1")])
    none]

/-- `findNodeById` from `IdeSidebar.tsx`: depth-first search, children
before later siblings. -/
def findNodeById : List FileTreeNode → String → Option FileTreeNode
  | [], _ => none
  | .mk nid nm ty cs pid :: rest, i =>
    if nid = i then some (.mk nid nm ty cs pid)
    else
      match cs with
      | some childNodes =>
        match findNodeById childNodes i with
        | some found => some found
        | none => findNodeById rest i
      | none => findNodeById rest i

/-- The node `handleAddItem` constructs:
`{id: itemType + '-' + Date.now(), name: ..., type: itemType, parentId}`
(no `children` property). -/
def newItemNode (itemType : ObjectType) (parentNodeId : String) (now : Nat) :
    FileTreeNode :=
  .mk (objectTypeName itemType ++ "-" ++ toString now)
      (if itemType = .contract then "Contract.yml" else "New " ++ objectTypeName itemType)
      itemType none (some parentNodeId)

mutual

/-- One node of `updateTree` in `handleAddItem`: a node with the target id
gets the new node appended to its (possibly missing) children; otherwise
recurse into existing children. -/
def addUnderNode (parentNodeId : String) (newNode : FileTreeNode) :
    FileTreeNode → FileTreeNode
  | .mk nid nm ty cs pid =>
    if nid = parentNodeId then .mk nid nm ty (some (cs.getD [] ++ [newNode])) pid
    else
      match cs with
      | some childNodes => .mk nid nm ty (some (addUnderForest parentNodeId newNode childNodes)) pid
      | none => .mk nid nm ty none pid

def addUnderForest (parentNodeId : String) (newNode : FileTreeNode) :
    List FileTreeNode → List FileTreeNode
  | [] => []
  | n :: rest => addUnderNode parentNodeId newNode n :: addUnderForest parentNodeId newNode rest

end

/-- `handleAddItem`'s `setTree(updateTree(tree))`. -/
def handleAddItem (tree : List FileTreeNode) (parentNodeId : String)
    (itemType : ObjectType) (now : Nat) : List FileTreeNode :=
  addUnderForest parentNodeId (newItemNode itemType parentNodeId now) tree

/-- The local state of `IdeSidebar` (the add-menu coordinates are dropped;
only the node id matters). -/
structure SidebarState where
  tree : List FileTreeNode
  expanded : List String
  sectionsExpanded : List String
  showAddMenu : Option String

/-- The user-triggerable sidebar operations. -/
inductive SidebarOp where
  | toggleExpanded (nodeId : String)
  | toggleSection (sectionId : String)
  | nodeClick (nodeId : String)
  | plusClick (nodeId : String)
  | addItem (parentNodeId : String) (itemType : ObjectType) (now : Nat)
  | dismissMenu

def SidebarOp.isAddItem : SidebarOp → Bool
  | .addItem _ _ _ => true
  | _ => false

/-- The state transition of each sidebar handler. `nodeClick` on a
contract or pipeline opens a tab (an effect on `IdeLayout`, not on the
sidebar state); on a folder it toggles expansion. -/
def sidebarStep (s : SidebarState) : SidebarOp → SidebarState
  | .toggleExpanded nodeId => { s with expanded := toggleSetMember s.expanded nodeId }
  | .toggleSection sectionId =>
    { s with sectionsExpanded := toggleSetMember s.sectionsExpanded sectionId }
  | .nodeClick nodeId =>
    match findNodeById s.tree nodeId with
    | some node =>
      if node.type = .contract ∨ node.type = .pipeline then s
      else { s with expanded := toggleSetMember s.expanded nodeId }
    | none => s
  | .plusClick nodeId => { s with showAddMenu := some nodeId }
  | .addItem parentNodeId itemType now =>
    { s with
      tree := handleAddItem s.tree parentNodeId itemType now
      showAddMenu := none
      expanded := setInsert s.expanded parentNodeId }
  | .dismissMenu => { s with showAddMenu := none }

/-- The initial sidebar state of `IdeSidebar`. -/
def initialSidebarState : SidebarState :=
  { tree := initialTree
    expanded := ["org-1", "proj-1", "src-1"]
    sectionsExpanded := ["pipes", "connections"]
    showAddMenu := none }

def runSidebar (ops : List SidebarOp) : SidebarState :=
  ops.foldl sidebarStep initialSidebarState

/-- `Tab` from `types.ts`.  The optional `content: React.ReactNode` field
is presentation data and is not modelled. -/
structure Tab where
  id : String
  name : String
  type : ObjectType
  isDirty : Option Bool := none
deriving DecidableEq, Repr

/-- The tab-bar state of `IdeLayout`. -/
structure IdeState where
  tabs : List Tab
  activeTabId : Option String
deriving DecidableEq, Repr

/-- `IdeLayout.handleOpenTab`: an existing id is only activated; a new
tab is appended and activated. -/
def handleOpenTab (s : IdeState) (tab : Tab) : IdeState :=
  match s.tabs.find? (fun t => t.id == tab.id) with
  | some _ => { s with activeTabId := some tab.id }
  | none => { tabs := s.tabs ++ [tab], activeTabId := some tab.id }

/-- `IdeLayout.handleCloseTab`: drop the tab; when the active tab was
closed, activate the last remaining tab, or clear when none remain. -/
def handleCloseTab (s : IdeState) (tabId : String) : IdeState :=
  let newTabs := s.tabs.filter fun t => !(t.id == tabId)
  { tabs := newTabs
    activeTabId :=
      if s.activeTabId = some tabId then
        match newTabs.getLast? with
        | some t => some t.id
        | none => none
      else s.activeTabId }

/-- `IdeLayout.handleTabChange`.  `IdeTabs` only ever invokes it with the
id of a rendered tab (`onTabChange(tab.id)` inside `tabs.map`). -/
def handleTabChange (s : IdeState) (tabId : String) : IdeState :=
  { s with activeTabId := some tabId }

/-- The operations `IdeSidebar`/`IdeTabs` can trigger on the tab state. -/
inductive IdeOp where
  | openTab (tab : Tab)
  | closeTab (tabId : String)

def ideStep (s : IdeState) : IdeOp → IdeState
  | .openTab t => handleOpenTab s t
  | .closeTab tid => handleCloseTab s tid

def ideInitial : IdeState := { tabs := [], activeTabId := none }

def runIde (ops : List IdeOp) : IdeState :=
  ops.foldl ideStep ideInitial

/-- The tab-bar invariant: tab ids are pairwise distinct and the active id
(when set) names a tab of the current list. -/
def IdeInv (s : IdeState) : Prop :=
  (s.tabs.map Tab.id).Nodup ∧
    ∀ tid, s.activeTabId = some tid → tid ∈ s.tabs.map Tab.id

/-! ## `DataGovernanceEditor.tsx` (claim C10) -/

inductive GovernanceRole where
  | owners
  | stakeholders
  | stewards
deriving DecidableEq, Repr

/-- `governance[role]` (the dynamic property read). -/
def DataGovernance.get (g : DataGovernance) : GovernanceRole → Option (List DataGovernancePerson)
  | .owners => g.owners
  | .stakeholders => g.stakeholders
  | .stewards => g.stewards

/-- `{...governance, [role]: v}` (the computed-key spread update). -/
def DataGovernance.set (g : DataGovernance) (role : GovernanceRole)
    (v : Option (List DataGovernancePerson)) : DataGovernance :=
  match role with
  | .owners => { g with owners := v }
  | .stakeholders => { g with stakeholders := v }
  | .stewards => { g with stewards := v }

/-- `addPerson(role)`: append `{name: '', email: '', role: ''}` to
`governance[role] || []`. -/
def addPerson (g : DataGovernance) (role : GovernanceRole) : DataGovernance :=
  g.set role (some ((g.get role).getD [] ++ [{ name := "", email := "", role := "" }]))

/-- JS `array.filter((_, i) => i !== index)`. -/
def filterOutIndex {α : Type} (l : List α) (index : Nat) : List α :=
  (l.enum.filter fun p => !(p.1 == index)).map Prod.snd

/-- `removePerson(role, index)`. -/
def removePerson (g : DataGovernance) (role : GovernanceRole) (index : Nat) :
    DataGovernance :=
  g.set role (some (filterOutIndex ((g.get role).getD []) index))

inductive PersonField where
  | name
  | email
  | role
deriving DecidableEq, Repr

/-- `{...person, [field]: value}`. -/
def setPersonField (p : DataGovernancePerson) : PersonField → String → DataGovernancePerson
  | .name, v => { p with name := v }
  | .email, v => { p with email := v }
  | .role, v => { p with role := v }

/-- `updatePerson(role, index, field, value)`: copy the role's list and
replace its `index`-th entry with the field-updated person.  The UI only
produces in-range indices (it maps over the list); an out-of-range write
is modelled as a no-op. -/
def updatePerson (g : DataGovernance) (role : GovernanceRole) (index : Nat)
    (field : PersonField) (value : String) : DataGovernance :=
  let list := (g.get role).getD []
  g.set role (some (list.set index
    (setPersonField (list.getD index { name := "", email := "", role := "" }) field value)))

/-- Observation used to separate file trees: the child count of the first
root when it has a children list. -/
def headChildCount : List FileTreeNode → Nat
  | FileTreeNode.mk _ _ _ (some cs) _ :: _ => cs.length
  | _ => 0

/-- Decimal digit list of a natural number (most significant first); the
fuel-free counterpart of `Nat.toDigits 10`. -/
def repr10Aux (n : Nat) : List Char :=
  if _h : n < 10 then [Nat.digitChar n]
  else repr10Aux (n / 10) ++ [Nat.digitChar (n % 10)]
decreasing_by exact Nat.div_lt_self (by omega) (by omega)

/-- Numeric value of a decimal digit character. -/
def digitCharVal (c : Char) : Nat := c.toNat - 48

/-- Parse a decimal digit list back to a number. -/
def ofDigits10 (l : List Char) : Nat :=
  l.foldl (fun acc c => acc * 10 + digitCharVal c) 0

/-! # Theorems -/

/-! ## Association-list lemmas for the JS `Map` model -/

theorem jsMapGet_set_self {β : Type} (m : List (String × β)) (k : String) (v : β) :
    jsMapGet (jsMapSet m k v) k = some v := by
  induction m with
  | nil => simp [jsMapGet, jsMapSet]
  | cons hd tl ih =>
    obtain ⟨k2, v2⟩ := hd
    by_cases h : k2 = k <;> simp [jsMapGet, jsMapSet, h, ih]

theorem jsMapGet_set_ne {β : Type} (m : List (String × β)) (k k' : String) (v : β)
    (h : k' ≠ k) : jsMapGet (jsMapSet m k v) k' = jsMapGet m k' := by
  have hk : ¬(k = k') := fun h2 => h h2.symm
  induction m with
  | nil => simp [jsMapGet, jsMapSet, hk]
  | cons hd tl ih =>
    obtain ⟨k2, v2⟩ := hd
    by_cases h2 : k2 = k
    · subst h2
      simp [jsMapGet, jsMapSet, hk]
    · simp [jsMapGet, jsMapSet, h2, ih]

theorem jsMapGet_upsert_self {β : Type} (m : List (String × β)) (k : String)
    (d : β) (f : β → β) :
    jsMapGet (jsMapUpsert m k d f) k = some (f ((jsMapGet m k).getD d)) := by
  induction m with
  | nil => simp [jsMapGet, jsMapUpsert]
  | cons hd tl ih =>
    obtain ⟨k2, v2⟩ := hd
    by_cases h : k2 = k <;> simp [jsMapGet, jsMapUpsert, h, ih]

theorem jsMapGet_upsert_ne {β : Type} (m : List (String × β)) (k k' : String)
    (d : β) (f : β → β) (h : k' ≠ k) :
    jsMapGet (jsMapUpsert m k d f) k' = jsMapGet m k' := by
  have hk : ¬(k = k') := fun h2 => h h2.symm
  induction m with
  | nil => simp [jsMapGet, jsMapUpsert, hk]
  | cons hd tl ih =>
    obtain ⟨k2, v2⟩ := hd
    by_cases h2 : k2 = k
    · subst h2
      simp [jsMapGet, jsMapUpsert, hk]
    · simp [jsMapGet, jsMapUpsert, h2, ih]

theorem spreadMerge_nil (base : List (String × String)) :
    spreadMerge base [] = base := by
  simp [spreadMerge, jsMapGet]

/-! ## String helpers -/

theorem string_append_right_cancel (p a b : String) :
    p ++ a = p ++ b ↔ a = b := by
  constructor
  · intro h
    have h2 : p.data ++ a.data = p.data ++ b.data := by
      have := congrArg String.data h
      simpa [String.data_append] using this
    exact String.ext (List.append_cancel_left h2)
  · intro h
    rw [h]

theorem string_append_ne_empty (a b : String) (ha : a ≠ "") : a ++ b ≠ "" := by
  intro h
  apply ha
  have h2 := congrArg String.data h
  simp [String.data_append] at h2
  exact String.ext (by simp [h2.1])

/-! ## Injectivity of the decimal rendering of `Nat` (for `contract:<id>` keys) -/

theorem toDigitsCore_eq_repr10Aux (f : Nat) :
    ∀ (n : Nat) (acc : List Char), n < f →
      Nat.toDigitsCore 10 f n acc = repr10Aux n ++ acc := by
  induction f with
  | zero => intro n acc h; omega
  | succ f ih =>
    intro n acc h
    by_cases h10 : n / 10 = 0
    · have hn : n < 10 := by
        by_contra hc
        have : 0 < n / 10 := Nat.div_pos (by omega) (by omega)
        omega
      rw [repr10Aux]
      simp [Nat.toDigitsCore, h10, hn, Nat.mod_eq_of_lt hn]
    · have hge : 10 ≤ n := by
        by_contra hc
        exact h10 (Nat.div_eq_of_lt (by omega))
      have hda : n / 10 < f := by
        have := Nat.div_lt_self (by omega : 0 < n) (by omega : 1 < 10)
        omega
      simp only [Nat.toDigitsCore, h10, if_false, ih (n / 10) _ hda]
      conv_rhs => rw [repr10Aux]
      rw [dif_neg (by omega : ¬n < 10)]
      simp

theorem natRepr_eq_repr10Aux (n : Nat) : Nat.repr n = (repr10Aux n).asString := by
  unfold Nat.repr Nat.toDigits
  rw [toDigitsCore_eq_repr10Aux (n + 1) n [] (Nat.lt_succ_self n)]
  simp

theorem digitCharVal_digitChar : ∀ d, d < 10 → digitCharVal (Nat.digitChar d) = d := by
  decide

theorem ofDigits10_repr10Aux (n : Nat) : ofDigits10 (repr10Aux n) = n := by
  induction n using Nat.strong_induction_on with
  | _ n ih =>
    rw [repr10Aux]
    by_cases h : n < 10
    · simp [h, ofDigits10, digitCharVal_digitChar n h]
    · have hpos : 0 < n := by omega
      have hda : n / 10 < n := Nat.div_lt_self hpos (by omega)
      have hmod : n % 10 < 10 := Nat.mod_lt n (by omega)
      simp only [h, dite_false, ofDigits10, List.foldl_append, List.foldl_cons,
        List.foldl_nil]
      have hrec : List.foldl (fun acc c => acc * 10 + digitCharVal c) 0 (repr10Aux (n / 10)) =
          n / 10 := ih (n / 10) hda
      rw [hrec, digitCharVal_digitChar _ hmod]
      omega

theorem natRepr_injective (m n : Nat) (h : Nat.repr m = Nat.repr n) : m = n := by
  rw [natRepr_eq_repr10Aux, natRepr_eq_repr10Aux] at h
  have hl : repr10Aux m = repr10Aux n := by
    have h2 := congrArg String.data h
    simpa [List.asString] using h2
  calc m = ofDigits10 (repr10Aux m) := (ofDigits10_repr10Aux m).symm
    _ = ofDigits10 (repr10Aux n) := by rw [hl]
    _ = n := ofDigits10_repr10Aux n

theorem contractKey_inj (c1 c2 : Contract) :
    contractKey c1 = contractKey c2 ↔ c1.id = c2.id := by
  unfold contractKey
  rw [string_append_right_cancel]
  constructor
  · intro h
    exact natRepr_injective c1.id c2.id h
  · intro h
    rw [h]

/-! ## Claim C2: error surfacing in the shared request helper (corrected)

The claim is exact for responses whose body parses as JSON: a present,
non-empty `detail` becomes the message, and an absent or empty `detail`
falls through to `HTTP error! status: N`.  It fails when the body does
not parse as JSON: the `catch` substitutes the constant
`{detail: 'An error occurred'}`, so the thrown message is
`'An error occurred'`, which is neither a detail of the response body nor
derived from the HTTP status. -/

/-- C2 counterexample: a non-ok response whose body is not JSON (status
500) makes `apiRequest` throw the constant message `'An error occurred'`,
not a message derived from the HTTP status as the claim requires (and the
unparseable body has no `detail` field to supply it). -/
theorem c2_error_message_counterexample :
    apiRequestResult (⟨false, 500, none, ()⟩ : HttpResponse Unit) =
      .error "An error occurred" ∧
    "An error occurred" ≠ "HTTP error! status: " ++ toString (500 : Nat) := by
  constructor
  · rfl
  · decide

/-- C2 (amended): on every non-ok response, `apiRequest` throws the
`detail` field of the parsed JSON body when it is present and non-empty,
a message derived from the HTTP status when the body parses but `detail`
is absent or empty, and the constant `'An error occurred'` when the body
does not parse as JSON; no result value is returned on a non-ok response,
and each call consumes exactly one response from the network (no retry or
backoff). -/
theorem c2_error_message (α : Type) (resp : HttpResponse α)
    (hok : resp.ok = false) :
    (∀ d, resp.errorBody = some (some d) → d ≠ "" →
        apiRequestResult resp = .error d) ∧
    (resp.errorBody = some none ∨ resp.errorBody = some (some "") →
        apiRequestResult resp = .error ("HTTP error! status: " ++ toString resp.status)) ∧
    (resp.errorBody = none → apiRequestResult resp = .error "An error occurred") ∧
    (∀ v : α, apiRequestResult resp ≠ .ok v) ∧
    (∀ rest, apiRequestOnStream (resp :: rest) = some (apiRequestResult resp, rest)) := by
  refine ⟨?_, ?_, ?_, ?_, ?_⟩
  · intro d hbody hd
    simp [apiRequestResult, apiErrorMessage, hok, hbody, hd]
  · intro hbody
    rcases hbody with hbody | hbody <;>
      simp [apiRequestResult, apiErrorMessage, hok, hbody]
  · intro hbody
    simp [apiRequestResult, apiErrorMessage, hok, hbody]
  · intro v
    simp [apiRequestResult, hok]
  · intro rest
    rfl

/-- C2 witness: a 404 response with body `{detail: 'Not found'}` throws
`'Not found'`. -/
theorem c2_error_message_witness :
    apiRequestResult (⟨false, 404, some (some "Not found"), ()⟩ : HttpResponse Unit) =
      .error "Not found" :=
  (c2_error_message Unit ⟨false, 404, some (some "Not found"), ()⟩ rfl).1
    "Not found" rfl (by decide)

/-! ## Claim C3: headers attached by the shared request helper (confirmed)

Every call site in the repository passes at most `method` and `body` in
`options` (never `headers`), so the merged header object is exactly
`getAuthHeaders`'s: `Content-Type: application/json` always, and
`Authorization: Bearer <token>` exactly when the token obtained from the
identity provider is non-empty.  The body is forwarded unchanged (call
sites pass `JSON.stringify(data)`), and the request is sent regardless of
whether a token was available. -/

/-- C3: with no caller-supplied headers (as at every call site in the
repository), both request helpers send a request whose headers carry
`Content-Type: application/json`, carry `Authorization: Bearer <token>`
exactly when the token obtained from the identity provider is non-empty,
and forward URL, method and JSON body unchanged; `useApi`'s helper sends
the identical request, and a request is sent even when no token is
available. -/
theorem c3_request_headers (apiUrl endpoint : String) (tokenResult : Option String)
    (options : RequestOptions) (hhdr : options.headers = []) :
    jsMapGet (apiRequestSent apiUrl (effectiveToken tokenResult) endpoint options).headers
        "Content-Type" = some "application/json" ∧
    jsMapGet (apiRequestSent apiUrl (effectiveToken tokenResult) endpoint options).headers
        "Authorization" =
      (if truthyStr (effectiveToken tokenResult) then
        some ("Bearer " ++ effectiveToken tokenResult) else none) ∧
    (apiRequestSent apiUrl (effectiveToken tokenResult) endpoint options).url =
      apiUrl ++ endpoint ∧
    (apiRequestSent apiUrl (effectiveToken tokenResult) endpoint options).method =
      options.method ∧
    (apiRequestSent apiUrl (effectiveToken tokenResult) endpoint options).body =
      options.body ∧
    useApiRequestSent apiUrl (effectiveToken tokenResult) endpoint options =
      apiRequestSent apiUrl (effectiveToken tokenResult) endpoint options := by
  refine ⟨?_, ?_, rfl, rfl, rfl, ?_⟩
  · by_cases ht : truthyStr (effectiveToken tokenResult) <;>
      simp [apiRequestSent, getAuthHeaders, hhdr, spreadMerge_nil, jsMapGet, ht]
  · by_cases ht : truthyStr (effectiveToken tokenResult) <;>
      simp [apiRequestSent, getAuthHeaders, hhdr, spreadMerge_nil, jsMapGet, ht]
  · simp [apiRequestSent, useApiRequestSent, getAuthHeaders]

/-- C3 witness: with token `'tok'`, the GET request to `/api/connections`
carries the bearer header; with no token, it is still sent, without an
Authorization header. -/
theorem c3_request_headers_witness :
    jsMapGet (apiRequestSent "http://localhost:8000" (effectiveToken (some "tok"))
        "/api/connections" {}).headers "Authorization" = some "Bearer tok" ∧
    jsMapGet (apiRequestSent "http://localhost:8000" (effectiveToken none)
        "/api/connections" {}).headers "Authorization" = none ∧
    (apiRequestSent "http://localhost:8000" (effectiveToken none)
        "/api/connections" {}).url = "http://localhost:8000/api/connections" := by
  refine ⟨?_, ?_, ?_⟩
  · have h := (c3_request_headers "http://localhost:8000" "/api/connections"
      (some "tok") {} rfl).2.1
    rw [h]
    rfl
  · have h := (c3_request_headers "http://localhost:8000" "/api/connections"
      none {} rfl).2.1
    rw [h]
    rfl
  · have h := (c3_request_headers "http://localhost:8000" "/api/connections"
      none {} rfl).2.2.1
    rw [h]
    rfl

/-! ## Claim C4: client-side required-field validation (confirmed) -/

/-- C4: `Projects.handleCreate` issues the create request exactly when
organization, department and project are all non-empty and otherwise
issues no request and sets `'Please fill in all required fields'`;
`CreatePipeline.handleSubmit` issues the pipeline create request exactly
when an S3 connection, a Snowflake connection and a bucket are selected
and, for `one_time` ingestion, a file is selected, or for `snowpipe`
ingestion a non-empty S3 prefix is given; otherwise it issues no request
and sets an error message. -/
theorem c4_form_validation :
    (∀ formData : ProjectFormData,
      (handleCreateProject formData = .submitted formData ↔
        (truthyStr formData.organization = true ∧ truthyStr formData.department = true ∧
          truthyStr formData.project = true)) ∧
      (¬(truthyStr formData.organization = true ∧ truthyStr formData.department = true ∧
          truthyStr formData.project = true) →
        handleCreateProject formData = .rejected "Please fill in all required fields")) ∧
    (∀ (s : CreatePipelineState) (now : Nat),
      ((∃ d, handleSubmit s now = .submitted d) ↔
        (truthyOptNum s.selectedS3Connection = true ∧
          truthyOptNum s.selectedSnowflakeConnection = true ∧
          truthyStr s.selectedBucket = true ∧
          (s.ingestionType = .one_time → truthyOptStr s.selectedFile = true) ∧
          (s.ingestionType = .snowpipe → truthyStr s.s3PathText = true))) ∧
      (¬(truthyOptNum s.selectedS3Connection = true ∧
          truthyOptNum s.selectedSnowflakeConnection = true ∧
          truthyStr s.selectedBucket = true ∧
          (s.ingestionType = .one_time → truthyOptStr s.selectedFile = true) ∧
          (s.ingestionType = .snowpipe → truthyStr s.s3PathText = true)) →
        ∃ msg, handleSubmit s now = .rejected msg)) := by
  refine ⟨?_, ?_⟩
  · intro formData
    by_cases h1 : truthyStr formData.organization <;>
    by_cases h2 : truthyStr formData.department <;>
    by_cases h3 : truthyStr formData.project <;>
      simp [handleCreateProject, h1, h2, h3]
  · intro s now
    cases hty : s.ingestionType <;>
    by_cases h1 : truthyOptNum s.selectedS3Connection <;>
    by_cases h2 : truthyOptNum s.selectedSnowflakeConnection <;>
    by_cases h3 : truthyStr s.selectedBucket <;>
    by_cases h4 : truthyOptStr s.selectedFile <;>
    by_cases h5 : truthyStr s.s3PathText <;>
      simp [handleSubmit, hty, h1, h2, h3, h4, h5]

/-- C4 witness: an all-empty Projects form is rejected with the exact
message, and a fully filled one-time pipeline form is submitted. -/
theorem c4_form_validation_witness :
    handleCreateProject
        { organization := "", department := "d", project := "p", data_governance := {} } =
      .rejected "Please fill in all required fields" ∧
    (∃ d, handleSubmit
        { ingestionType := .one_time, selectedS3Connection := some 1,
          selectedSnowflakeConnection := some 2, selectedBucket := "b",
          selectedFile := some "f.csv", s3PathText := "", targetDatabase := "db",
          targetSchema := "sc", targetTable := "", pipelineName := "",
          detectedFileFormat := "CSV", fileType := "", copyOptions := [] } 7 =
      .submitted d) := by
  constructor
  · exact (c4_form_validation.1 ⟨"", "d", "p", {}⟩).2 (by decide)
  · exact ((c4_form_validation.2
      { ingestionType := .one_time, selectedS3Connection := some 1,
        selectedSnowflakeConnection := some 2, selectedBucket := "b",
        selectedFile := some "f.csv", s3PathText := "", targetDatabase := "db",
        targetSchema := "sc", targetTable := "", pipelineName := "",
        detectedFileFormat := "CSV", fileType := "", copyOptions := [] } 7).1).mpr
      (by decide)

/-! ## Claim C7: racing list requests, last state update wins (confirmed) -/

theorem runContractsResponses_getLastD (s : ContractsPageState)
    (responses : List (List Contract)) :
    (runContractsResponses s responses).contracts = responses.getLastD s.contracts := by
  induction responses generalizing s with
  | nil => rfl
  | cons x xs ih =>
    show (runContractsResponses (applyContractsResponse s x) xs).contracts = _
    rw [ih (applyContractsResponse s x), List.getLastD_cons]
    rfl

theorem runPipelinesResponses_getLastD (s : PipelinesPageState)
    (responses : List (List Pipeline)) :
    (runPipelinesResponses s responses).pipelines = responses.getLastD s.pipelines := by
  induction responses generalizing s with
  | nil => rfl
  | cons x xs ih =>
    show (runPipelinesResponses (applyPipelinesResponse s x) xs).pipelines = _
    rw [ih (applyPipelinesResponse s x), List.getLastD_cons]
    rfl

/-- C7: when several list responses resolve on the same page, the
displayed collection is the one whose state update applied last,
whatever order the requests were issued in; each update replaces the
collection outright, independent of the state it finds (no cancellation,
ordering, or conflict detection). -/
theorem c7_last_update_wins :
    (∀ (s : ContractsPageState) (responses : List (List Contract)),
      (runContractsResponses s responses).contracts = responses.getLastD s.contracts) ∧
    (∀ (s s2 : ContractsPageState) (data : List Contract),
      (applyContractsResponse s data).contracts = (applyContractsResponse s2 data).contracts) ∧
    (∀ (s : PipelinesPageState) (responses : List (List Pipeline)),
      (runPipelinesResponses s responses).pipelines = responses.getLastD s.pipelines) ∧
    (∀ (s s2 : PipelinesPageState) (data : List Pipeline),
      (applyPipelinesResponse s data).pipelines = (applyPipelinesResponse s2 data).pipelines) :=
  ⟨runContractsResponses_getLastD, fun _ _ _ => rfl,
   runPipelinesResponses_getLastD, fun _ _ _ => rfl⟩

/-! ## Claim C8: file-format auto-detection (corrected)

The detection is indeed a function of the lower-cased final dot-separated
segment, with `json`/`jsonl` → JSON, `parquet` → PARQUET and everything
else → CSV.  But for a key with no dot, `split('.')` returns the whole
key, so `pop()` is the whole lower-cased key — a dotless key named
`json`, `jsonl` or `parquet` is mapped to that format, not to CSV as the
claim states for all dotless keys. -/

theorem splitChars_not_mem (sep : Char) (l : List Char) (h : sep ∉ l) :
    splitChars sep l = [l] := by
  induction l with
  | nil => rfl
  | cons c cs ih =>
    simp only [List.mem_cons, not_or] at h
    obtain ⟨h1, h2⟩ := h
    simp only [splitChars, ih h2]
    rw [if_neg (fun hc => h1 hc.symm)]

theorem asString_data (s : String) : s.data.asString = s := by
  cases s
  rfl

/-- C8 counterexample: the key `json` has no dot, yet the detected format
is JSON, where the claim requires CSV for every key with no dot. -/
theorem c8_file_format_counterexample :
    detectFileFormat "json" = "JSON" ∧ ('.' ∉ "json".data) ∧ "JSON" ≠ "CSV" := by
  refine ⟨by decide, by decide, by decide⟩

/-- C8 (amended): the detected format is determined solely by the
lower-cased final dot-separated segment of the key — `json`/`jsonl` yield
JSON, `parquet` yields PARQUET, every other segment yields CSV — where
for a key with no dot that segment is the whole lower-cased key (so a
dotless key named exactly `json`, `jsonl` or `parquet` yields that format
rather than CSV). -/
theorem c8_file_format (key : String) :
    (detectFileFormat key = "JSON" ↔
      (lastExtSegment key = "json" ∨ lastExtSegment key = "jsonl")) ∧
    (detectFileFormat key = "PARQUET" ↔ lastExtSegment key = "parquet") ∧
    (detectFileFormat key = "CSV" ↔
      ¬(lastExtSegment key = "json" ∨ lastExtSegment key = "jsonl" ∨
        lastExtSegment key = "parquet")) ∧
    (∀ key2 : String, lastExtSegment key2 = lastExtSegment key →
      detectFileFormat key2 = detectFileFormat key) ∧
    ('.' ∉ (jsToLower key).data → lastExtSegment key = jsToLower key) := by
  refine ⟨?_, ?_, ?_, ?_, ?_⟩
  · by_cases h1 : lastExtSegment key = "json" <;>
    by_cases h2 : lastExtSegment key = "jsonl" <;>
    by_cases h3 : lastExtSegment key = "csv" <;>
    by_cases h4 : lastExtSegment key = "parquet" <;>
      simp_all [detectFileFormat]
  · by_cases h1 : lastExtSegment key = "json" <;>
    by_cases h2 : lastExtSegment key = "jsonl" <;>
    by_cases h3 : lastExtSegment key = "csv" <;>
    by_cases h4 : lastExtSegment key = "parquet" <;>
      simp_all [detectFileFormat]
  · by_cases h1 : lastExtSegment key = "json" <;>
    by_cases h2 : lastExtSegment key = "jsonl" <;>
    by_cases h3 : lastExtSegment key = "csv" <;>
    by_cases h4 : lastExtSegment key = "parquet" <;>
      simp_all [detectFileFormat]
  · intro key2 he
    unfold detectFileFormat
    rw [he]
  · intro h
    unfold lastExtSegment jsSplit
    rw [splitChars_not_mem '.' (jsToLower key).data h]
    simp [asString_data]

/-- C8 witness: a mixed-case `.Parquet` extension is detected as PARQUET. -/
theorem c8_file_format_witness : detectFileFormat "Data.Parquet" = "PARQUET" :=
  (c8_file_format "Data.Parquet").2.1.mpr (by decide)

/-! ## Claim C10: governance role isolation in `DataGovernanceEditor` (confirmed) -/

theorem enumFrom_filter_out {α : Type} (l : List α) :
    ∀ (n i : Nat),
      ((List.enumFrom n l).filter fun p => !(p.1 == i)).map Prod.snd =
        if n ≤ i then l.take (i - n) ++ l.drop (i - n + 1) else l := by
  induction l with
  | nil =>
    intro n i
    by_cases h : n ≤ i <;> simp [h]
  | cons x xs ih =>
    intro n i
    by_cases hni : n = i
    · subst hni
      simp only [List.enumFrom, List.filter_cons, beq_self_eq_true, Bool.not_true,
        Bool.false_eq_true, if_false, ih (n + 1) n]
      rw [if_neg (by omega), if_pos (Nat.le_refl n)]
      simp
    · by_cases hlt : n < i
      · have h1 : i - n = (i - (n + 1)) + 1 := by omega
        simp only [List.enumFrom, List.filter_cons]
        rw [if_pos (by simp [hni] : (!((n, x).1 == i)) = true)]
        simp only [List.map_cons, ih (n + 1) i]
        rw [if_pos (by omega), if_pos (by omega), h1]
        simp [List.take_succ_cons, List.drop_succ_cons]
      · have hgt : i < n := by omega
        simp only [List.enumFrom, List.filter_cons]
        rw [if_pos (by simp [hni] : (!((n, x).1 == i)) = true)]
        simp only [List.map_cons, ih (n + 1) i]
        rw [if_neg (by omega), if_neg (by omega)]

theorem filterOutIndex_eq_take_drop {α : Type} (l : List α) (i : Nat) :
    filterOutIndex l i = l.take i ++ l.drop (i + 1) := by
  unfold filterOutIndex
  have h := enumFrom_filter_out l 0 i
  simpa [List.enum] using h

theorem governance_get_set_self (g : DataGovernance) (role : GovernanceRole)
    (v : Option (List DataGovernancePerson)) : (g.set role v).get role = v := by
  cases role <;> simp [DataGovernance.get, DataGovernance.set]

theorem governance_get_set_ne (g : DataGovernance) (role other : GovernanceRole)
    (v : Option (List DataGovernancePerson)) (h : other ≠ role) :
    (g.set role v).get other = g.get other := by
  cases role <;> cases other <;>
    simp_all [DataGovernance.get, DataGovernance.set]

/-- C10: `addPerson`, `removePerson` and `updatePerson` on one governance
role leave the other two roles' lists unchanged; `removePerson(role, i)`
removes exactly the `i`-th entry of that role's list, preserving the
order of the rest, and `addPerson(role)` appends exactly one person with
empty name, email and role. -/
theorem c10_governance_roles (g : DataGovernance) (role other : GovernanceRole)
    (index : Nat) (field : PersonField) (value : String) (hne : other ≠ role) :
    (addPerson g role).get other = g.get other ∧
    (removePerson g role index).get other = g.get other ∧
    (updatePerson g role index field value).get other = g.get other ∧
    (addPerson g role).get role =
      some ((g.get role).getD [] ++ [{ name := "", email := "", role := "" }]) ∧
    (removePerson g role index).get role =
      some (((g.get role).getD []).take index ++ ((g.get role).getD []).drop (index + 1)) := by
  refine ⟨?_, ?_, ?_, ?_, ?_⟩
  · exact governance_get_set_ne g role other _ hne
  · exact governance_get_set_ne g role other _ hne
  · exact governance_get_set_ne g role other _ hne
  · rw [addPerson, governance_get_set_self]
  · rw [removePerson, governance_get_set_self, filterOutIndex_eq_take_drop]

/-- C10 witness: removing the middle owner keeps the stakeholders intact
and drops exactly the middle entry; adding an owner appends one blank
person. -/
theorem c10_governance_roles_witness :
    (removePerson ⟨some [⟨"A", "a", "r"⟩, ⟨"B", "b", "r"⟩, ⟨"C", "c", "r"⟩], some [⟨"S", "s", "t"⟩], none⟩ .owners 1).get .stakeholders = some [⟨"S", "s", "t"⟩] ∧
    (removePerson ⟨some [⟨"A", "a", "r"⟩, ⟨"B", "b", "r"⟩, ⟨"C", "c", "r"⟩], some [⟨"S", "s", "t"⟩], none⟩ .owners 1).get .owners = some [⟨"A", "a", "r"⟩, ⟨"C", "c", "r"⟩] ∧
    (addPerson ⟨some [⟨"A", "a", "r"⟩, ⟨"B", "b", "r"⟩, ⟨"C", "c", "r"⟩], some [⟨"S", "s", "t"⟩], none⟩ .owners).get .owners = some [⟨"A", "a", "r"⟩, ⟨"B", "b", "r"⟩, ⟨"C", "c", "r"⟩, ⟨"", "", ""⟩] := by
  have h := c10_governance_roles
    ⟨some [⟨"A", "a", "r"⟩, ⟨"B", "b", "r"⟩, ⟨"C", "c", "r"⟩], some [⟨"S", "s", "t"⟩], none⟩
    .owners .stakeholders 1 .name "x" (by decide)
  refine ⟨?_, ?_, ?_⟩
  · rw [h.2.1]
    rfl
  · rw [h.2.2.2.2]
    rfl
  · rw [h.2.2.2.1]
    rfl

/-! ## Claim C9: IDE tab-bar invariant (confirmed) -/

theorem ide_inv_open (s : IdeState) (tab : Tab) (h : IdeInv s) :
    IdeInv (handleOpenTab s tab) := by
  obtain ⟨hnd, hact⟩ := h
  unfold handleOpenTab
  cases hf : s.tabs.find? (fun t => t.id == tab.id) with
  | some t =>
    refine ⟨hnd, ?_⟩
    intro tid htid
    simp only [Option.some.injEq] at htid
    subst htid
    have hmem := List.mem_of_find?_eq_some hf
    have hid : t.id = tab.id := by
      have := List.find?_some hf
      simpa using this
    exact hid ▸ List.mem_map_of_mem Tab.id hmem
  | none =>
    have hnotin : tab.id ∉ s.tabs.map Tab.id := by
      intro hmem
      obtain ⟨t, ht, htid⟩ := List.mem_map.mp hmem
      have := List.find?_eq_none.mp hf t ht
      simp [htid] at this
    refine ⟨?_, ?_⟩
    · simpa [List.nodup_append, hnd] using hnotin
    · intro tid htid
      simp only [Option.some.injEq] at htid
      subst htid
      simp

theorem ide_inv_close (s : IdeState) (tabId : String) (h : IdeInv s) :
    IdeInv (handleCloseTab s tabId) := by
  obtain ⟨hnd, hact⟩ := h
  unfold handleCloseTab
  refine ⟨?_, ?_⟩
  · exact hnd.sublist ((List.filter_sublist s.tabs).map Tab.id)
  · intro tid htid
    simp only at htid
    by_cases hcase : s.activeTabId = some tabId
    · rw [if_pos hcase] at htid
      cases hl : (s.tabs.filter fun t => !(t.id == tabId)).getLast? with
      | none => rw [hl] at htid; exact absurd htid (by simp)
      | some t =>
        rw [hl] at htid
        simp only [Option.some.injEq] at htid
        subst htid
        have hmem : t ∈ s.tabs.filter fun t => !(t.id == tabId) := by
          obtain ⟨hne, heq⟩ := List.mem_getLast?_eq_getLast (l := _) (x := t) (by rw [hl]; rfl)
          exact heq ▸ List.getLast_mem hne
        exact List.mem_map_of_mem Tab.id hmem
    · rw [if_neg hcase] at htid
      have hmem := hact tid htid
      obtain ⟨t, ht, htid2⟩ := List.mem_map.mp hmem
      have htne : t.id ≠ tabId := by
        intro hcontra
        apply hcase
        rw [htid, ← htid2, hcontra]
      have : t ∈ s.tabs.filter fun t => !(t.id == tabId) :=
        List.mem_filter.mpr ⟨ht, by simp [htne]⟩
      exact htid2 ▸ List.mem_map_of_mem Tab.id this

theorem ide_inv_step (s : IdeState) (op : IdeOp) (h : IdeInv s) :
    IdeInv (ideStep s op) := by
  cases op with
  | openTab t => exact ide_inv_open s t h
  | closeTab tid => exact ide_inv_close s tid h

theorem ide_inv_run (ops : List IdeOp) :
    ∀ s : IdeState, IdeInv s → IdeInv (ops.foldl ideStep s) := by
  induction ops with
  | nil => intro s h; exact h
  | cons op rest ih => intro s h; exact ih (ideStep s op) (ide_inv_step s op h)

/-- C9: under every sequence of open/close operations starting from the
empty tab bar, tab ids stay pairwise distinct and `activeTabId` is null
or the id of a current tab; opening an already-present id only activates
the existing tab without duplicating it; closing the active tab activates
the last remaining tab (or clears the active id when none remain);
closing a non-active tab leaves both the active id and the other tabs
untouched; and switching to a rendered tab's id preserves the invariant. -/
theorem c9_tab_invariant :
    (∀ ops : List IdeOp, IdeInv (runIde ops)) ∧
    (∀ (s : IdeState) (tab t : Tab), t ∈ s.tabs → t.id = tab.id →
      handleOpenTab s tab = { s with activeTabId := some tab.id }) ∧
    (∀ (s : IdeState) (tabId : String), s.activeTabId = some tabId →
      (handleCloseTab s tabId).activeTabId =
        ((s.tabs.filter fun t => !(t.id == tabId)).getLast?).map Tab.id) ∧
    (∀ (s : IdeState) (tabId : String), s.activeTabId ≠ some tabId →
      (handleCloseTab s tabId).activeTabId = s.activeTabId ∧
      (handleCloseTab s tabId).tabs = s.tabs.filter fun t => !(t.id == tabId)) ∧
    (∀ (s : IdeState) (tabId : String), IdeInv s → tabId ∈ s.tabs.map Tab.id →
      IdeInv (handleTabChange s tabId)) := by
  refine ⟨?_, ?_, ?_, ?_, ?_⟩
  · intro ops
    exact ide_inv_run ops ideInitial ⟨List.nodup_nil, by intro tid h; simp [ideInitial] at h⟩
  · intro s tab t ht htid
    unfold handleOpenTab
    cases hf : s.tabs.find? (fun t2 => t2.id == tab.id) with
    | some t2 => rfl
    | none =>
      have := List.find?_eq_none.mp hf t ht
      simp [htid] at this
  · intro s tabId hcase
    unfold handleCloseTab
    simp only [if_pos hcase]
    cases (s.tabs.filter fun t => !(t.id == tabId)).getLast? <;> rfl
  · intro s tabId hcase
    unfold handleCloseTab
    exact ⟨by simp [if_neg hcase], rfl⟩
  · intro s tabId h hmem
    exact ⟨h.1, by intro tid htid; simp only [handleTabChange, Option.some.injEq] at htid; exact htid ▸ hmem⟩

/-- C9 witness: opening a tab whose id is already open only activates it
(no duplicate); closing a non-active tab keeps the active id; closing the
active tab activates the last remaining tab. -/
theorem c9_tab_invariant_witness :
    handleOpenTab ⟨[⟨"a", "A", .contract, none⟩], none⟩ ⟨"a", "A2", .contract, none⟩ =
      ⟨[⟨"a", "A", .contract, none⟩], some "a"⟩ ∧
    (handleCloseTab ⟨[⟨"a", "A", .contract, none⟩, ⟨"b", "B", .pipeline, none⟩], some "a"⟩
      "b").activeTabId = some "a" ∧
    (handleCloseTab ⟨[⟨"a", "A", .contract, none⟩, ⟨"b", "B", .pipeline, none⟩], some "b"⟩
      "b").activeTabId = some "a" := by
  refine ⟨?_, ?_, ?_⟩
  · exact c9_tab_invariant.2.1 _ ⟨"a", "A2", .contract, none⟩ ⟨"a", "A", .contract, none⟩
      (by simp) rfl
  · exact (c9_tab_invariant.2.2.2.1 _ "b" (by decide)).1
  · rw [c9_tab_invariant.2.2.1 _ "b" rfl]
    rfl

/-! ## Claim C5: the IDE sidebar file tree (corrected)

The tree starts as the static `initialTree` mock and no operation removes
or renames a node, and expand/collapse/open operations leave it
untouched — but `handleAddItem` does mutate it: it appends one new node
under the selected parent, so the tree does not remain equal to the
initial mock under every operation sequence. -/

theorem sidebar_step_tree (s : SidebarState) (op : SidebarOp)
    (h : op.isAddItem = false) : (sidebarStep s op).tree = s.tree := by
  cases op with
  | toggleExpanded nid => rfl
  | toggleSection sid => rfl
  | nodeClick nid =>
    simp only [sidebarStep]
    cases hf : findNodeById s.tree nid with
    | none => rfl
    | some node =>
      by_cases ht : node.type = .contract ∨ node.type = .pipeline <;> simp [ht]
  | plusClick nid => rfl
  | addItem p ty now => simp [SidebarOp.isAddItem] at h
  | dismissMenu => rfl

theorem sidebar_run_tree (ops : List SidebarOp) :
    ∀ s : SidebarState, (∀ op ∈ ops, op.isAddItem = false) →
      (ops.foldl sidebarStep s).tree = s.tree := by
  induction ops with
  | nil => intro s _; rfl
  | cons op rest ih =>
    intro s h
    have h1 := h op (by simp)
    have h2 : ∀ op2 ∈ rest, op2.isAddItem = false := fun op2 hm => h op2 (by simp [hm])
    rw [List.foldl_cons, ih (sidebarStep s op) h2, sidebar_step_tree s op h1]

/-- C5 counterexample: adding a project under `org-1` changes the rendered
tree data away from the initial mock tree, refuting "the tree remains
equal to the initial mock tree under every sequence of sidebar
operations". -/
theorem c5_sidebar_tree_counterexample :
    ¬((runSidebar [SidebarOp.addItem "org-1" ObjectType.project 0]).tree = initialTree) :=
  fun h => absurd (congrArg headChildCount h) (by decide)

/-- C5 (amended): the tree starts as the static mock and every sidebar
operation except `handleAddItem` leaves it unchanged (no operation
removes or renames a node); `handleAddItem` appends exactly one new node
under the selected parent, as the concrete run shows. -/
theorem c5_sidebar_tree_static (ops : List SidebarOp)
    (h : ∀ op ∈ ops, op.isAddItem = false) :
    (runSidebar ops).tree = initialTree ∧
    (∀ (s : SidebarState) (op : SidebarOp), op.isAddItem = false →
      (sidebarStep s op).tree = s.tree) ∧
    (runSidebar (ops ++ [SidebarOp.addItem "src-1" ObjectType.contract 7])).tree =
      handleAddItem (runSidebar ops).tree "src-1" ObjectType.contract 7 ∧
    handleAddItem initialTree "src-1" ObjectType.contract 7 =
      [FileTreeNode.mk "org-1" "Organization" .organization
        (some [FileTreeNode.mk "proj-1" "Project 1" .project
          (some [FileTreeNode.mk "src-1" "Source 1" .source
            (some [FileTreeNode.mk "contract-1" "Contract.yml" .contract none (some "src-1"),
              FileTreeNode.mk "contract-7" "Contract.yml" .contract none (some "src-1")])
            (some "proj-1")])
          (some "org-1")])
        none] := by
  refine ⟨sidebar_run_tree ops initialSidebarState h, sidebar_step_tree, ?_, ?_⟩
  · simp only [runSidebar, List.foldl_append, List.foldl_cons, List.foldl_nil]
    rfl
  · rfl

/-- C5 witness: a toggle-only operation sequence leaves the tree equal to
the initial mock. -/
theorem c5_sidebar_tree_static_witness :
    (runSidebar [SidebarOp.toggleExpanded "org-1"]).tree = initialTree :=
  (c5_sidebar_tree_static [SidebarOp.toggleExpanded "org-1"] (by decide)).1

/-! ## Claim C6: `contractsApi.list` / `projectsApi.list` query strings (confirmed) -/

theorem append_ne_empty_right (a b : String) (hb : b ≠ "") : a ++ b ≠ "" := by
  intro h
  apply hb
  have h2 := congrArg String.data h
  simp [String.data_append] at h2
  exact String.ext (by simp [h2.2])

theorem searchParamsToString_cons_ne_empty (p : String × String)
    (rest : List (String × String)) : searchParamsToString (p :: rest) ≠ "" := by
  cases rest with
  | nil => exact string_append_ne_empty _ _ (append_ne_empty_right _ "=" (by decide))
  | cons q qs => exact string_append_ne_empty _ _ (append_ne_empty_right _ "&" (by decide))

theorem queryParamsStep (params : List (String × String)) (name : String)
    (v : Option String) :
    (if truthyOptStr v then params ++ [(name, v.getD "")] else params) =
      params ++ specQueryEntry name v := by
  cases v with
  | none => simp [truthyOptStr, specQueryEntry]
  | some str =>
    by_cases hs : str = "" <;> simp [truthyOptStr, truthyStr, specQueryEntry, hs]

theorem contractsListParams_eq (filters : ContractFilters) :
    contractsListParams filters =
      specQueryEntry "organization" filters.organization ++
      specQueryEntry "department" filters.department ++
      specQueryEntry "project_name" filters.project_name ++
      specQueryEntry "source" filters.source := by
  obtain ⟨o, d, p, src⟩ := filters
  simp only [contractsListParams]
  rw [queryParamsStep, queryParamsStep, queryParamsStep, queryParamsStep]
  simp

theorem projectsListParams_eq (org dept : Option String) :
    projectsListParams org dept =
      specQueryEntry "organization" org ++ specQueryEntry "department" dept := by
  simp only [projectsListParams]
  rw [queryParamsStep, queryParamsStep]
  simp

/-- C6: both list endpoints append exactly those filters that are
provided and non-empty, in source order, URL-encoded by the query
serializer; the path carries a `?`-query exactly when at least one filter
was appended, and no query string otherwise. -/
theorem c6_list_query_building (filters : ContractFilters) (org dept : Option String) :
    contractsListParams filters =
      specQueryEntry "organization" filters.organization ++
      specQueryEntry "department" filters.department ++
      specQueryEntry "project_name" filters.project_name ++
      specQueryEntry "source" filters.source ∧
    contractsListUrl filters =
      "/api/contracts" ++
        (if contractsListParams filters = [] then ""
         else "?" ++ searchParamsToString (contractsListParams filters)) ∧
    projectsListParams org dept =
      specQueryEntry "organization" org ++ specQueryEntry "department" dept ∧
    projectsListUrl org dept =
      "/api/projects" ++
        (if projectsListParams org dept = [] then ""
         else "?" ++ searchParamsToString (projectsListParams org dept)) ∧
    contractsListUrl { organization := some "dept a/b" } =
      "/api/contracts?organization=dept+a%2Fb" ∧
    contractsListUrl {} = "/api/contracts" := by
  refine ⟨contractsListParams_eq filters, ?_, projectsListParams_eq org dept, ?_,
    by decide, by decide⟩
  · unfold contractsListUrl
    cases hps : contractsListParams filters with
    | nil => simp [truthyStr, searchParamsToString]
    | cons p rest =>
      rw [if_neg (by simp)]
      simp [truthyStr, searchParamsToString_cons_ne_empty p rest]
  · unfold projectsListUrl
    cases hps : projectsListParams org dept with
    | nil => simp [truthyStr, searchParamsToString]
    | cons p rest =>
      rw [if_neg (by simp)]
      simp [truthyStr, searchParamsToString_cons_ne_empty p rest]

/-! ## Claim C1: the contract tree grouping (corrected)

The grouping is exactly by equal keys at the four levels — the prefixed
key strings are injective per field, so two contracts share an
organization node iff their `organization` fields are equal, and so on —
and the build is one left-to-right pass.  But "every contract of the
input appears as a leaf bearing its name" fails when two contracts share
the same id and the same four grouping fields: the later one's
`set` overwrites the earlier leaf (the leaf key is `contract:<id>`).
With pairwise-distinct ids, every contract's leaf is present. -/

theorem children_withChildren (t : TreeNode) (c : List (String × TreeNode)) :
    (t.withChildren c).children = c := by
  cases t
  rfl

theorem jsMapGet_upsert_get {β : Type} (m : List (String × β)) (k k2 : String)
    (d : β) (f : β → β) (v : β) (hv : jsMapGet m k = some v) :
    jsMapGet (jsMapUpsert m k2 d f) k = some (if k = k2 then f v else v) := by
  by_cases h : k = k2
  · subst h
    rw [jsMapGet_upsert_self, hv]
    simp
  · rw [jsMapGet_upsert_ne m k2 k d f h, hv, if_neg h]

theorem orgKey_inj (c1 c2 : Contract) :
    orgKey c1 = orgKey c2 ↔ c1.organization = c2.organization :=
  string_append_right_cancel "org:" c1.organization c2.organization

theorem deptKey_inj (c1 c2 : Contract) :
    deptKey c1 = deptKey c2 ↔ c1.department = c2.department :=
  string_append_right_cancel "dept:" c1.department c2.department

theorem projKey_inj (c1 c2 : Contract) :
    projKey c1 = projKey c2 ↔ c1.project_name = c2.project_name :=
  string_append_right_cancel "proj:" c1.project_name c2.project_name

theorem sourceKey_inj (c1 c2 : Contract) :
    sourceKey c1 = sourceKey c2 ↔ c1.source = c2.source :=
  string_append_right_cancel "source:" c1.source c2.source

theorem findLeaf_insert_self (t : TreeNode) (c : Contract) :
    findLeaf (insertContract t c) c = some (contractLeaf c) := by
  unfold findLeaf insertContract
  simp [children_withChildren, jsMapGet_upsert_self, jsMapGet_set_self]

theorem findLeaf_insert_other (t : TreeNode) (c c2 : Contract)
    (hck : contractKey c ≠ contractKey c2)
    (hfound : findLeaf t c = some (contractLeaf c)) :
    findLeaf (insertContract t c2) c = some (contractLeaf c) := by
  unfold findLeaf at hfound
  cases ho : jsMapGet t.children (orgKey c) with
  | none => rw [ho] at hfound; simp at hfound
  | some orgNode =>
  rw [ho] at hfound
  simp only [Option.some_bind] at hfound
  cases hd : jsMapGet orgNode.children (deptKey c) with
  | none => rw [hd] at hfound; simp at hfound
  | some deptNode =>
  rw [hd] at hfound
  simp only [Option.some_bind] at hfound
  cases hp : jsMapGet deptNode.children (projKey c) with
  | none => rw [hp] at hfound; simp at hfound
  | some projNode =>
  rw [hp] at hfound
  simp only [Option.some_bind] at hfound
  cases hs : jsMapGet projNode.children (sourceKey c) with
  | none => rw [hs] at hfound; simp at hfound
  | some sourceNode =>
  rw [hs] at hfound
  simp only [Option.some_bind] at hfound
  unfold findLeaf insertContract
  simp only [children_withChildren]
  rw [jsMapGet_upsert_get _ _ _ _ _ _ ho]
  by_cases h1 : orgKey c = orgKey c2
  · rw [if_pos h1]
    simp only [Option.some_bind, children_withChildren]
    rw [jsMapGet_upsert_get _ _ _ _ _ _ hd]
    by_cases h2 : deptKey c = deptKey c2
    · rw [if_pos h2]
      simp only [Option.some_bind, children_withChildren]
      rw [jsMapGet_upsert_get _ _ _ _ _ _ hp]
      by_cases h3 : projKey c = projKey c2
      · rw [if_pos h3]
        simp only [Option.some_bind, children_withChildren]
        rw [jsMapGet_upsert_get _ _ _ _ _ _ hs]
        by_cases h4 : sourceKey c = sourceKey c2
        · rw [if_pos h4]
          simp only [Option.some_bind, children_withChildren]
          rw [jsMapGet_set_ne _ _ _ _ hck]
          exact hfound
        · rw [if_neg h4]
          simp only [Option.some_bind]
          exact hfound
      · rw [if_neg h3]
        simp only [Option.some_bind]
        rw [hs]
        simp only [Option.some_bind]
        exact hfound
    · rw [if_neg h2]
      simp only [Option.some_bind]
      rw [hp]
      simp only [Option.some_bind]
      rw [hs]
      simp only [Option.some_bind]
      exact hfound
  · rw [if_neg h1]
    simp only [Option.some_bind]
    rw [hd]
    simp only [Option.some_bind]
    rw [hp]
    simp only [Option.some_bind]
    rw [hs]
    simp only [Option.some_bind]
    exact hfound

theorem findLeaf_buildTree :
    ∀ (contracts : List Contract), (contracts.map Contract.id).Nodup →
      ∀ c ∈ contracts, findLeaf (buildTree contracts) c = some (contractLeaf c) := by
  intro contracts
  induction contracts using List.reverseRecOn with
  | nil =>
    intro _ c hc
    simp at hc
  | append_singleton cs x ih =>
    intro hnd c hc
    have hstep : buildTree (cs ++ [x]) = insertContract (buildTree cs) x := by
      simp [buildTree, List.foldl_append]
    rw [hstep]
    rw [List.map_append] at hnd
    have hnd2 := List.nodup_append.mp hnd
    rcases List.mem_append.mp hc with hcs | hx
    · have hid : c.id ≠ x.id := by
        intro he
        have hinl : x.id ∈ cs.map Contract.id := he ▸ List.mem_map_of_mem Contract.id hcs
        exact hnd2.2.2 hinl (by simp)
      have hfound := ih hnd2.1 c hcs
      exact findLeaf_insert_other _ c x (fun hk => hid ((contractKey_inj c x).mp hk)) hfound
    · have hcx : c = x := by simpa using hx
      subst hcx
      exact findLeaf_insert_self _ c

/-- C1 counterexample: with two contracts sharing id 1 and the same four
grouping fields but different names, the leaf reached along the first
contract's path bears the second's name — the first contract does not
appear as a leaf bearing its name, refuting the claim for arbitrary
input lists. -/
theorem c1_contract_tree_counterexample :
    (findLeaf (buildTree
        [⟨1, "A", none, "o", "d", "p", "s", none, "", ""⟩,
         ⟨1, "B", none, "o", "d", "p", "s", none, "", ""⟩])
      ⟨1, "A", none, "o", "d", "p", "s", none, "", ""⟩).map TreeNode.name = some "B" ∧
    Contract.name ⟨1, "A", none, "o", "d", "p", "s", none, "", ""⟩ = "A" ∧
    ¬("B" = "A") := by
  refine ⟨by decide, rfl, by decide⟩

/-- C1 (amended): the tree is a single-pass grouping by equal keys at the
four levels — contracts share an organization node iff their
`organization` fields are equal, a department node iff additionally the
`department` fields are equal, and likewise for `project_name` and
`source` — the build consumes the input in one left-to-right pass, and,
provided the contracts' ids are pairwise distinct, every contract of the
input appears as a leaf bearing its name (and id) under the path
organization/department/project_name/source given by its own fields. -/
theorem c1_contract_tree_grouping (contracts : List Contract) (c c1 c2 x : Contract)
    (cs : List Contract)
    (hnd : (contracts.map Contract.id).Nodup) (hc : c ∈ contracts) :
    findLeaf (buildTree contracts) c = some (contractLeaf c) ∧
    contractLeaf c = TreeNode.mk c.name TreeNodeType.contract [] (some c.id) ∧
    (orgKey c1 = orgKey c2 ↔ c1.organization = c2.organization) ∧
    ((orgKey c1 = orgKey c2 ∧ deptKey c1 = deptKey c2) ↔
      (c1.organization = c2.organization ∧ c1.department = c2.department)) ∧
    ((orgKey c1 = orgKey c2 ∧ deptKey c1 = deptKey c2 ∧ projKey c1 = projKey c2) ↔
      (c1.organization = c2.organization ∧ c1.department = c2.department ∧
        c1.project_name = c2.project_name)) ∧
    ((orgKey c1 = orgKey c2 ∧ deptKey c1 = deptKey c2 ∧ projKey c1 = projKey c2 ∧
        sourceKey c1 = sourceKey c2) ↔
      (c1.organization = c2.organization ∧ c1.department = c2.department ∧
        c1.project_name = c2.project_name ∧ c1.source = c2.source)) ∧
    buildTree (cs ++ [x]) = insertContract (buildTree cs) x := by
  refine ⟨findLeaf_buildTree contracts hnd c hc, rfl, orgKey_inj c1 c2,
    and_congr (orgKey_inj c1 c2) (deptKey_inj c1 c2),
    and_congr (orgKey_inj c1 c2) (and_congr (deptKey_inj c1 c2) (projKey_inj c1 c2)),
    and_congr (orgKey_inj c1 c2) (and_congr (deptKey_inj c1 c2)
      (and_congr (projKey_inj c1 c2) (sourceKey_inj c1 c2))),
    by simp [buildTree, List.foldl_append]⟩

/-- C1 witness: in a two-contract list with distinct ids sharing the same
grouping path, each contract's leaf is found under its path. -/
theorem c1_contract_tree_grouping_witness :
    findLeaf (buildTree
        [⟨1, "A", none, "o", "d", "p", "s", none, "", ""⟩,
         ⟨2, "B", none, "o", "d", "p", "s", none, "", ""⟩])
      ⟨1, "A", none, "o", "d", "p", "s", none, "", ""⟩ =
      some (contractLeaf ⟨1, "A", none, "o", "d", "p", "s", none, "", ""⟩) :=
  (c1_contract_tree_grouping
    [⟨1, "A", none, "o", "d", "p", "s", none, "", ""⟩,
     ⟨2, "B", none, "o", "d", "p", "s", none, "", ""⟩]
    ⟨1, "A", none, "o", "d", "p", "s", none, "", ""⟩
    ⟨1, "A", none, "o", "d", "p", "s", none, "", ""⟩
    ⟨2, "B", none, "o", "d", "p", "s", none, "", ""⟩
    ⟨2, "B", none, "o", "d", "p", "s", none, "", ""⟩
    [] (by decide) (by decide)).1

end Snowloader






